import Mathlib

/-!
# SRI tooling of restaurant-frontend

A shallow embedding of `scripts/validate-sri.js` (the integrity scanner),
`src/config/cdn-config.js` (the CDN configuration helpers) and the body
accumulation of `scripts/calculate-sri-hash.js` (the hash calculator),
followed by the properties proved about them.

JavaScript strings are modelled as their sequence of UTF-16 code units, which
is what `String.prototype.match`, `startsWith`, `includes`, `substring` and
`length` operate on for the (non-unicode-mode) patterns of the scripts.
-/

namespace SRI

set_option maxRecDepth 100000

/-! ## JavaScript strings -/

/-- A JavaScript string, as the list of its UTF-16 code units. -/
abbrev JSString := List Nat

/-- The UTF-16 code units of one Unicode scalar value. -/
def utf16Char (c : Char) : List Nat :=
  if c.toNat < 0x10000 then [c.toNat]
  else [0xD800 + (c.toNat - 0x10000) / 0x400, 0xDC00 + (c.toNat - 0x10000) % 0x400]

/-- The JavaScript string denoted by a source literal. -/
def utf16 (s : String) : JSString :=
  s.toList.flatMap utf16Char

/-- `s.startsWith(p)`. -/
def startsWith (s p : JSString) : Bool :=
  p.isPrefixOf s

/-- `s.includes(sub)`: `sub` occurs somewhere in `s`. -/
def includes : JSString → JSString → Bool
  | [], sub => sub.isPrefixOf []
  | c :: cs, sub => sub.isPrefixOf (c :: cs) || includes cs sub

/-- `s.substring(0, n)`. -/
def substring0 (s : JSString) (n : Nat) : JSString :=
  s.take n

/-- JavaScript truthiness of a value that is either `undefined` or a string:
only a non-empty string is truthy. -/
def truthy : Option JSString → Bool
  | some (_ :: _) => true
  | _ => false

/-! ## The regular expressions of the scanner

The patterns used by the scanner are sequences of literals, single-unit
classes, greedy `*` / `+` over a class, and one capturing group `(class+)`.
Matching is the backtracking, leftmost, greedy matching of ECMAScript. -/

/-- One element of a pattern. -/
inductive Item where
  /-- A literal run of code units. -/
  | lit (s : JSString)
  /-- One code unit of a class such as `["']`. -/
  | cls (p : Nat → Bool)
  /-- Greedy `class*`. -/
  | star (p : Nat → Bool)
  /-- Greedy `class+`. -/
  | plus (p : Nat → Bool)
  /-- The capturing group `(class+)`. -/
  | capPlus (p : Nat → Bool)

/-- Drop the literal `l` from the front of `s`, if `s` starts with it. -/
def stripLit : JSString → JSString → Option JSString
  | [], s => some s
  | _ :: _, [] => none
  | a :: l, c :: s => if a = c then stripLit l s else none

/-- Greedy repetition of a class with backtracking: consume as many units of
the class as possible, run the continuation `k` on what was consumed and what
remains, and give units back one at a time while `k` fails. -/
def greedy {α : Type} (p : Nat → Bool) (k : JSString → JSString → Option α) :
    JSString → JSString → Option α
  | acc, [] => k acc []
  | acc, c :: cs =>
    if p c then
      match greedy p k (acc ++ [c]) cs with
      | some r => some r
      | none => k acc (c :: cs)
    else k acc (c :: cs)

/-- Match a pattern at the start of `s`; on success return the unconsumed rest
of `s` and the value of capture group 1. -/
def matchItems : List Item → Option JSString → JSString → Option (JSString × Option JSString)
  | [], cap, s => some (s, cap)
  | .lit l :: is, cap, s =>
    match stripLit l s with
    | some r => matchItems is cap r
    | none => none
  | .cls p :: is, cap, s =>
    match s with
    | c :: cs => if p c then matchItems is cap cs else none
    | [] => none
  | .star p :: is, cap, s => greedy p (fun _ r => matchItems is cap r) [] s
  | .plus p :: is, cap, s =>
    match s with
    | c :: cs => if p c then greedy p (fun _ r => matchItems is cap r) [c] cs else none
    | [] => none
  | .capPlus p :: is, _, s =>
    match s with
    | c :: cs => if p c then greedy p (fun m r => matchItems is (some m) r) [c] cs else none
    | [] => none

/-- A successful match: the matched text and capture group 1. -/
structure Match where
  text : JSString
  group1 : Option JSString

/-- Try the pattern at the very start of `s`. -/
def matchHere (re : List Item) (s : JSString) : Option Match :=
  match matchItems re none s with
  | some (rest, cap) => some ⟨s.take (s.length - rest.length), cap⟩
  | none => none

/-- `s.match(re)` for a pattern without the `g` flag: the leftmost match. -/
def search (re : List Item) : JSString → Option Match
  | [] => matchHere re []
  | c :: cs =>
    match matchHere re (c :: cs) with
    | some m => some m
    | none => search re cs

/-- `s.match(re)?.[1]`: capture group 1 of the leftmost match, `none` standing
for `undefined`. -/
def group1 (re : List Item) (s : JSString) : Option JSString :=
  match search re s with
  | some m => m.group1
  | none => none

/-- Scanning for `s.match(re)` with the `g` flag; `skip` is the number of units
still covered by the previous match. -/
def matchAllFrom (re : List Item) : JSString → Nat → List JSString
  | [], 0 =>
    match matchHere re [] with
    | some m => [m.text]
    | none => []
  | [], _ + 1 => []
  | _ :: cs, skip + 1 => matchAllFrom re cs skip
  | c :: cs, 0 =>
    match matchHere re (c :: cs) with
    | some m => m.text :: matchAllFrom re cs (m.text.length - 1)
    | none => matchAllFrom re cs 0

/-- `s.match(re) || []` for a pattern with the `g` flag: all matches, left to
right, each search resuming where the previous match ended. -/
def matchAll (re : List Item) (s : JSString) : List JSString :=
  matchAllFrom re s 0

/-- The class `[^>]`. -/
def notGt (c : Nat) : Bool := c != 62

/-- The class `["']`. -/
def quote (c : Nat) : Bool := c == 34 || c == 39

/-- The class `[^"']`. -/
def notQuote (c : Nat) : Bool := !(c == 34 || c == 39)

/-- The class `\s` (white space and line terminators). -/
def space (c : Nat) : Bool :=
  c == 9 || c == 10 || c == 11 || c == 12 || c == 13 || c == 32 || c == 0xA0 ||
  c == 0x1680 || (0x2000 ≤ c && c ≤ 0x200A) || c == 0x2028 || c == 0x2029 ||
  c == 0x202F || c == 0x205F || c == 0x3000 || c == 0xFEFF

/-- The pattern `<link[^>]*>`. -/
def linkTagRe : List Item :=
  [.lit (utf16 "<link"), .star notGt, .lit (utf16 ">")]

/-- The pattern `<script[^>]*src=["']([^"']+)["'][^>]*>`. -/
def scriptTagRe : List Item :=
  [.lit (utf16 "<script"), .star notGt, .lit (utf16 "src="), .cls quote, .capPlus notQuote,
   .cls quote, .star notGt, .lit (utf16 ">")]

/-- The pattern `name=["']([^"']+)["']` for an attribute name. -/
def attrRe (name : String) : List Item :=
  [.lit (utf16 (name ++ "=")), .cls quote, .capPlus notQuote, .cls quote]

/-- The pattern `@import\s+url\(["']([^"']+)["']\)`. -/
def importRe : List Item :=
  [.lit (utf16 "@import"), .plus space, .lit (utf16 "url("), .cls quote, .capPlus notQuote,
   .cls quote, .lit (utf16 ")")]

/-- The pattern `url\(["']([^"']+)["']\)`. -/
def urlRe : List Item :=
  [.lit (utf16 "url("), .cls quote, .capPlus notQuote, .cls quote, .lit (utf16 ")")]

/-! ## The integrity scanner (`scripts/validate-sri.js`) -/

/-- An entry pushed to one of the three result arrays. Absent object keys are
`none`. -/
structure Entry where
  type : JSString
  url : JSString
  message : JSString
  tag : Option JSString
  suggestion : Option JSString
deriving DecidableEq, Repr

/-- The three result arrays `errors`, `warnings`, `success`. -/
structure Report where
  errors : List Entry
  warnings : List Entry
  success : List Entry
deriving DecidableEq, Repr

/-- The arrays as initialised before scanning. -/
def emptyReport : Report := ⟨[], [], []⟩

/-- The condition `url.startsWith("http://") || url.startsWith("https://")`. -/
def isHttp (url : JSString) : Bool :=
  startsWith url (utf16 "http://") || startsWith url (utf16 "https://")

/-- The condition `url && (url.startsWith("http://") || url.startsWith("https://"))`. -/
def isCDN (url : Option JSString) : Bool :=
  truthy url && isHttp (url.getD [])

/-- The literal `"PLACEHOLDER"`. -/
def placeholder : JSString := utf16 "PLACEHOLDER"

/-- The diagnostic excerpt `tag.substring(0, 100) + "..."`. -/
def snippet (tag : JSString) : JSString :=
  substring0 tag 100 ++ utf16 "..."

/-! The `message` and `suggestion` texts of the entries. -/

def msgLinkMissing : JSString := utf16 "CDN trong HTML thiếu SRI (integrity attribute)"
def msgLinkPlaceholder : JSString := utf16 "CDN có placeholder hash - cần tính hash thực tế"
def msgLinkCrossorigin : JSString := utf16 "CDN trong HTML thiếu crossorigin attribute"
def msgLinkOk : JSString := utf16 "CDN có SRI đầy đủ"
def msgScriptMissing : JSString := utf16 "Script CDN trong HTML thiếu SRI (integrity attribute)"
def msgScriptPlaceholder : JSString := utf16 "Script CDN có placeholder hash - cần tính hash thực tế"
def msgScriptCrossorigin : JSString := utf16 "Script CDN trong HTML thiếu crossorigin attribute"
def msgScriptOk : JSString := utf16 "Script CDN có SRI đầy đủ"
def msgImport : JSString := utf16 "Tìm thấy @import CDN trong SCSS"
def suggestionImport : JSString := utf16 "Nên chuyển sang <link> tag trong HTML với SRI"

/-- The callback of `linkTags.forEach`. -/
def linkStep (r : Report) (tag : JSString) : Report :=
  let href := group1 (attrRe "href") tag
  let integrity := group1 (attrRe "integrity") tag
  let crossorigin := group1 (attrRe "crossorigin") tag
  if isCDN href then
    if !truthy integrity then
      { r with errors := r.errors ++
          [⟨utf16 "link", href.getD [], msgLinkMissing, some (snippet tag), none⟩] }
    else if includes (integrity.getD []) placeholder then
      { r with errors := r.errors ++
          [⟨utf16 "link", href.getD [], msgLinkPlaceholder, some (snippet tag), none⟩] }
    else if !truthy crossorigin then
      { r with warnings := r.warnings ++
          [⟨utf16 "link", href.getD [], msgLinkCrossorigin, some (snippet tag), none⟩] }
    else
      { r with success := r.success ++ [⟨utf16 "link", href.getD [], msgLinkOk, none, none⟩] }
  else r

/-- The callback of `scriptTags.forEach`. -/
def scriptStep (r : Report) (tag : JSString) : Report :=
  let src := group1 (attrRe "src") tag
  let integrity := group1 (attrRe "integrity") tag
  let crossorigin := group1 (attrRe "crossorigin") tag
  if isCDN src then
    if !truthy integrity then
      { r with errors := r.errors ++
          [⟨utf16 "script", src.getD [], msgScriptMissing, some (snippet tag), none⟩] }
    else if includes (integrity.getD []) placeholder then
      { r with errors := r.errors ++
          [⟨utf16 "script", src.getD [], msgScriptPlaceholder, some (snippet tag), none⟩] }
    else if !truthy crossorigin then
      { r with warnings := r.warnings ++
          [⟨utf16 "script", src.getD [], msgScriptCrossorigin, some (snippet tag), none⟩] }
    else
      { r with success := r.success ++
          [⟨utf16 "script", src.getD [], msgScriptOk, none, none⟩] }
  else r

/-- The callback of `importMatches.forEach`. -/
def importStep (r : Report) (m : JSString) : Report :=
  let url := group1 urlRe m
  if isCDN url then
    { r with warnings := r.warnings ++
        [⟨utf16 "scss", url.getD [], msgImport, none, some suggestionImport⟩] }
  else r

/-- `indexHtml.match(/<link[^>]*>/g) || []`. -/
def linkTags (indexHtml : JSString) : List JSString :=
  matchAll linkTagRe indexHtml

/-- `indexHtml.match(/<script[^>]*src=["']([^"']+)["'][^>]*>/g) || []`. -/
def scriptTags (indexHtml : JSString) : List JSString :=
  matchAll scriptTagRe indexHtml

/-- `globalScss.match(/@import\s+url\(["']([^"']+)["']\)/g) || []`. -/
def importMatches (globalScss : JSString) : List JSString :=
  matchAll importRe globalScss

/-- The three scanning passes of the script over the text of `index.html` and
of `global.scss`, in program order. -/
def scan (indexHtml globalScss : JSString) : Report :=
  let r1 := (linkTags indexHtml).foldl linkStep emptyReport
  let r2 := (scriptTags indexHtml).foldl scriptStep r1
  (importMatches globalScss).foldl importStep r2

/-- The code passed to `process.exit` once the arrays are filled. -/
def exitCode (r : Report) : Nat :=
  if r.errors.length = 0 && r.warnings.length = 0 then 0 else 1

/-! ## The CDN configuration helpers (`src/config/cdn-config.js`) -/

/-- A CDN config object; a key that is absent (or `undefined`) is `none`. -/
structure CDNConfig where
  url : Option JSString
  integrity : Option JSString
  crossorigin : Option JSString
deriving DecidableEq, Repr

/-- The attribute object for a `<link>` tag. -/
structure LinkAttrs where
  rel : JSString
  href : Option JSString
  integrity : Option JSString
  crossorigin : Option JSString
deriving DecidableEq, Repr

/-- The attribute object for a `<script>` tag. -/
structure ScriptAttrs where
  src : Option JSString
  integrity : Option JSString
  crossorigin : Option JSString
deriving DecidableEq, Repr

/-- The entry `CDN_CONFIG.googleFonts`. -/
def googleFonts : CDNConfig :=
  { url := some (utf16 "https://fonts.googleapis.com/css2?family=Inter:wght@400;500;600&family=Playfair+Display:wght@500;600;700&display=swap")
    integrity := some (utf16 "sha384-S3VzJTjbQV9QubZkWFnvzSm+7oj7AfwPOxLiTLib3utxL/Z1WLi/g/1DzF+lin9q")
    crossorigin := some (utf16 "anonymous") }

def createCDNLink (config : CDNConfig) : LinkAttrs :=
  { rel := utf16 "stylesheet"
    href := config.url
    integrity := config.integrity
    crossorigin := config.crossorigin }

def createCDNScript (config : CDNConfig) : ScriptAttrs :=
  { src := config.url
    integrity := config.integrity
    crossorigin := config.crossorigin }

/-! ## The hash calculator (`scripts/calculate-sri-hash.js`)

Response chunks are `Buffer`s (the script never calls `setEncoding`), modelled
as lists of bytes. `data += chunk` converts the chunk with
`Buffer.prototype.toString()`, that is UTF-8 decoding with U+FFFD replacement,
and `update(data, "utf8")` encodes the accumulated string back to UTF-8. -/

/-- State of the UTF-8 decoder between two bytes of one buffer. -/
structure Utf8State where
  codePoint : Nat
  bytesSeen : Nat
  bytesNeeded : Nat
  lower : Nat
  upper : Nat
deriving DecidableEq, Repr

/-- The decoder state outside a multi-byte sequence. -/
def utf8Init : Utf8State := ⟨0, 0, 0, 0x80, 0xBF⟩

/-- Decoding a byte that starts a sequence: the code points emitted and the
next state. -/
def utf8Lead (b : Nat) : List Nat × Utf8State :=
  if b ≤ 0x7F then ([b], utf8Init)
  else if 0xC2 ≤ b ∧ b ≤ 0xDF then ([], ⟨b % 0x20, 0, 1, 0x80, 0xBF⟩)
  else if 0xE0 ≤ b ∧ b ≤ 0xEF then
    ([], ⟨b % 0x10, 0, 2, if b = 0xE0 then 0xA0 else 0x80, if b = 0xED then 0x9F else 0xBF⟩)
  else if 0xF0 ≤ b ∧ b ≤ 0xF4 then
    ([], ⟨b % 0x08, 0, 3, if b = 0xF0 then 0x90 else 0x80, if b = 0xF4 then 0x8F else 0xBF⟩)
  else ([0xFFFD], utf8Init)

/-- Decoding one byte. A byte that cannot continue the pending sequence ends
it with U+FFFD and is then decoded as the start of a new sequence. -/
def utf8Step (st : Utf8State) (b : Nat) : List Nat × Utf8State :=
  if st.bytesNeeded = 0 then utf8Lead b
  else if b < st.lower ∨ st.upper < b then
    (0xFFFD :: (utf8Lead b).1, (utf8Lead b).2)
  else if st.bytesSeen + 1 = st.bytesNeeded then
    ([st.codePoint * 64 + b % 64], utf8Init)
  else ([], ⟨st.codePoint * 64 + b % 64, st.bytesSeen + 1, st.bytesNeeded, 0x80, 0xBF⟩)

/-- Decoding the bytes of a buffer from a given state; a sequence still
pending at the end of the buffer becomes U+FFFD. -/
def utf8DecodeFrom : Utf8State → List Nat → List Nat
  | st, [] => if st.bytesNeeded = 0 then [] else [0xFFFD]
  | st, b :: bs => (utf8Step st b).1 ++ utf8DecodeFrom (utf8Step st b).2 bs

/-- The UTF-16 code units of a code point. -/
def utf16OfCodePoint (cp : Nat) : List Nat :=
  if cp < 0x10000 then [cp]
  else [0xD800 + (cp - 0x10000) / 0x400, 0xDC00 + (cp - 0x10000) % 0x400]

/-- `chunk.toString()` for a `Buffer`: the string obtained by decoding the
bytes of the buffer as UTF-8. -/
def bufferToString (chunk : List Nat) : JSString :=
  (utf8DecodeFrom utf8Init chunk).flatMap utf16OfCodePoint

/-- The UTF-8 bytes of a code point. -/
def utf8OfCodePoint (cp : Nat) : List Nat :=
  if cp < 0x80 then [cp]
  else if cp < 0x800 then [0xC0 + cp / 0x40, 0x80 + cp % 0x40]
  else if cp < 0x10000 then [0xE0 + cp / 0x1000, 0x80 + cp / 0x40 % 0x40, 0x80 + cp % 0x40]
  else [0xF0 + cp / 0x40000, 0x80 + cp / 0x1000 % 0x40, 0x80 + cp / 0x40 % 0x40,
        0x80 + cp % 0x40]

/-- A code unit in the surrogate range. -/
def isSurrogate (u : Nat) : Bool := 0xD800 ≤ u && u ≤ 0xDFFF

/-- The bytes that `hash.update(data, "utf8")` feeds to a digest: the UTF-8
encoding of the string, an unpaired surrogate being encoded as U+FFFD. -/
def stringToUtf8 : JSString → List Nat
  | [] => []
  | [u] => utf8OfCodePoint (if isSurrogate u then 0xFFFD else u)
  | u :: v :: rest =>
    if 0xD800 ≤ u ∧ u ≤ 0xDBFF ∧ 0xDC00 ≤ v ∧ v ≤ 0xDFFF then
      utf8OfCodePoint (0x10000 + (u - 0xD800) * 0x400 + (v - 0xDC00)) ++ stringToUtf8 rest
    else utf8OfCodePoint (if isSurrogate u then 0xFFFD else u) ++ stringToUtf8 (v :: rest)

/-- The variables `data` and `totalSize` of the response callback. -/
structure Download where
  data : JSString
  totalSize : Nat
deriving DecidableEq, Repr

/-- The handler of the `data` event. -/
def onData (d : Download) (chunk : List Nat) : Download :=
  { data := d.data ++ bufferToString chunk
    totalSize := d.totalSize + chunk.length }

/-- What the `end` handler reports: the byte count it prints and the byte
sequence it feeds to each of the three digests. -/
structure DigestRun where
  reportedBytes : Nat
  sha256Input : List Nat
  sha384Input : List Nat
  sha512Input : List Nat
deriving DecidableEq, Repr

/-- The handler of the `end` event; `none` is the exit on an empty resource. -/
def onEnd (d : Download) : Option DigestRun :=
  if d.data.length = 0 then none
  else some
    { reportedBytes := d.totalSize
      sha256Input := stringToUtf8 d.data
      sha384Input := stringToUtf8 d.data
      sha512Input := stringToUtf8 d.data }

/-- The response callback run on a sequence of chunks followed by `end`. -/
def receive (chunks : List (List Nat)) : Option DigestRun :=
  onEnd (chunks.foldl onData ⟨[], 0⟩)

/-! ## References in discovery order -/

/-- The kind of a discovered reference: the pass of the scanner that finds it. -/
inductive Kind where
  | link
  | script
  | scss
deriving DecidableEq, Repr

/-- The references in the order in which the scanner meets them: the `<link>`
tags of the markup from left to right, then its `<script src>` tags from left
to right, then the `@import` directives of the stylesheet from left to right. -/
def discovered (indexHtml globalScss : JSString) : List (Kind × JSString) :=
  (linkTags indexHtml).map (fun t => (Kind.link, t)) ++
  (scriptTags indexHtml).map (fun t => (Kind.script, t)) ++
  (importMatches globalScss).map (fun t => (Kind.scss, t))

/-- The callback the scanner runs on a reference of a given kind. -/
def step (r : Report) (d : Kind × JSString) : Report :=
  match d.1 with
  | .link => linkStep r d.2
  | .script => scriptStep r d.2
  | .scss => importStep r d.2

/-- The URL the scanner extracts from a reference. -/
def extractedUrl (d : Kind × JSString) : Option JSString :=
  match d.1 with
  | .link => group1 (attrRe "href") d.2
  | .script => group1 (attrRe "src") d.2
  | .scss => group1 urlRe d.2

/-- A reference is in scope when a URL is extracted from it and that URL starts
with `http://` or `https://`. -/
def inScope (d : Kind × JSString) : Bool :=
  match extractedUrl d with
  | some u => isHttp u
  | none => false

/-- What a reference alone adds to empty arrays. -/
def contribution (d : Kind × JSString) : Report :=
  step emptyReport d

/-- Field-wise concatenation of two reports. -/
def Report.append (a b : Report) : Report :=
  ⟨a.errors ++ b.errors, a.warnings ++ b.warnings, a.success ++ b.success⟩

/-- All entries of a report, errors first. -/
def Report.entries (r : Report) : List Entry :=
  r.errors ++ r.warnings ++ r.success

/-! ## Tags and directives described by their text -/

/-- The text of `tag` carries the attribute `name` written in full: somewhere
in the tag a white-space character is followed by `name=`, a quote character,
the non-empty value `v` free of quote characters, and a quote character; and
this is the first place of the tag where `name=` is followed by a quote
character (`name="` and `name=` followed by an apostrophe begin nowhere
before it). -/
def WrittenAttr (name : String) (tag v : JSString) : Prop :=
  ∃ (A B : JSString) (w q q2 : Nat),
    tag = A ++ (w :: (utf16 (name ++ "=") ++ (q :: (v ++ (q2 :: B))))) ∧
    space w = true ∧ quote q = true ∧ quote q2 = true ∧
    v ≠ [] ∧ (∀ c ∈ v, notQuote c = true) ∧
    includes (A ++ (w :: utf16 (name ++ "="))) (utf16 (name ++ "=") ++ [34]) = false ∧
    includes (A ++ (w :: utf16 (name ++ "="))) (utf16 (name ++ "=") ++ [39]) = false

/-- The text of an import directive: `@import`, the white space `ws`, `url(`,
the quote character `q`, the URL `u`, the quote character `q2` and `)`. -/
def importDirective (ws : JSString) (q : Nat) (u : JSString) (q2 : Nat) : JSString :=
  utf16 "@import" ++ (ws ++ (utf16 "url(" ++ (q :: (u ++ (q2 :: utf16 ")")))))

/-! ## Facts about the string and pattern primitives -/

theorem isHttp_ne_nil {u : JSString} (h : isHttp u = true) : u ≠ [] := by
  rintro rfl
  exact absurd h (by decide)

theorem truthy_of_ne_nil {v : JSString} (h : v ≠ []) : truthy (some v) = true := by
  cases v with
  | nil => exact absurd rfl h
  | cons a l => rfl

theorem isCDN_some {u : JSString} (h : isHttp u = true) : isCDN (some u) = true := by
  simp [isCDN, truthy_of_ne_nil (isHttp_ne_nil h), h]

theorem isCDN_some_iff (u : JSString) : isCDN (some u) = isHttp u := by
  cases h : isHttp u
  · simp [isCDN, h]
  · exact isCDN_some h

theorem truthy_none : truthy none = false := rfl

theorem includes_placeholder_ne_nil {v : JSString} (h : includes v placeholder = true) :
    v ≠ [] := by
  rintro rfl
  exact absurd h (by decide)

/-- Whatever `greedy` returns was returned by its continuation, called on the
accumulator extended by a run of units of the class and on the rest. -/
theorem greedy_some {α : Type} (p : Nat → Bool) (k : JSString → JSString → Option α) :
    ∀ (s acc : JSString) (r : α), greedy p k acc s = some r →
      ∃ m rest, s = m ++ rest ∧ (∀ x ∈ m, p x = true) ∧ k (acc ++ m) rest = some r := by
  intro s
  induction s with
  | nil =>
    intro acc r h
    exact ⟨[], [], rfl, by simp, by simpa [greedy] using h⟩
  | cons c cs ih =>
    intro acc r h
    unfold greedy at h
    by_cases hp : p c = true
    · simp only [hp, if_true] at h
      cases hg : greedy p k (acc ++ [c]) cs with
      | some r2 =>
        rw [hg] at h
        obtain ⟨m, rest, hs, hm, hk⟩ := ih (acc ++ [c]) r2 hg
        refine ⟨c :: m, rest, by simp [hs], ?_, ?_⟩
        · intro x hx
          rcases List.mem_cons.mp hx with rfl | hx
          · exact hp
          · exact hm x hx
        · simpa [List.append_assoc] using hk.trans h
      | none =>
        rw [hg] at h
        exact ⟨[], c :: cs, rfl, by simp, by simpa using h⟩
    · simp only [hp] at h
      exact ⟨[], c :: cs, rfl, by simp, by simpa using h⟩

/-- A match of an attribute pattern captures a non-empty value. -/
theorem matchItems_attrRe_group1 (name : String) (s rest : JSString) (cap : Option JSString)
    (h : matchItems (attrRe name) none s = some (rest, cap)) :
    ∃ v, cap = some v ∧ v ≠ [] := by
  simp only [attrRe, matchItems] at h
  split at h
  · rename_i r _
    split at h
    · rename_i c cs
      split at h
      · split at h
        · rename_i d ds
          split at h
          · obtain ⟨m, rest2, _, _, hk⟩ := greedy_some _ _ _ _ _ h
            split at hk
            · split at hk
              · simp only [Option.some.injEq, Prod.mk.injEq] at hk
                exact ⟨[d] ++ m, hk.2.symm, by simp⟩
              · exact absurd hk (by simp)
            · exact absurd hk (by simp)
          · exact absurd h (by simp)
        · exact absurd h (by simp)
      · exact absurd h (by simp)
    · exact absurd h (by simp)
  · exact absurd h (by simp)

theorem search_attrRe_group1 (name : String) :
    ∀ (s : JSString) (m : Match), search (attrRe name) s = some m →
      ∃ v, m.group1 = some v ∧ v ≠ [] := by
  have key : ∀ (s : JSString) (m : Match), matchHere (attrRe name) s = some m →
      ∃ v, m.group1 = some v ∧ v ≠ [] := by
    intro s m h
    unfold matchHere at h
    split at h
    · rename_i rest cap hm
      simp only [Option.some.injEq] at h
      subst h
      exact matchItems_attrRe_group1 name s rest cap hm
    · exact absurd h (by simp)
  intro s
  induction s with
  | nil => intro m h; exact key [] m (by simpa [search] using h)
  | cons c cs ih =>
    intro m h
    unfold search at h
    split at h
    · rename_i m2 hm
      simp only [Option.some.injEq] at h
      subst h
      exact key _ _ hm
    · exact ih m h

/-- The value extracted for an attribute is never the empty string, so it is
truthy. -/
theorem group1_attrRe_ne_nil {name : String} {tag v : JSString}
    (h : group1 (attrRe name) tag = some v) : v ≠ [] := by
  unfold group1 at h
  split at h
  · rename_i m hm
    obtain ⟨w, hw, hne⟩ := search_attrRe_group1 name tag m hm
    rw [hw] at h
    simp only [Option.some.injEq] at h
    exact h ▸ hne
  · exact absurd h (by simp)

theorem stripLit_some_isPrefixOf :
    ∀ (l s r : JSString), stripLit l s = some r → l.isPrefixOf s = true := by
  intro l
  induction l with
  | nil => intro s r _; simp
  | cons a l ih =>
    intro s r h
    cases s with
    | nil => simp [stripLit] at h
    | cons c s =>
      unfold stripLit at h
      split_ifs at h with hac
      subst hac
      simp [ih s r h]

theorem matchHere_attrRe_isPrefixOf (name : String) (s : JSString) (m : Match)
    (h : matchHere (attrRe name) s = some m) :
    (utf16 (name ++ "=")).isPrefixOf s = true := by
  unfold matchHere at h
  split at h
  · rename_i rest cap hm
    simp only [attrRe, matchItems] at hm
    split at hm
    · rename_i r hr
      exact stripLit_some_isPrefixOf _ _ _ hr
    · exact absurd hm (by simp)
  · exact absurd h (by simp)

theorem search_attrRe_includes (name : String) :
    ∀ (s : JSString) (m : Match), search (attrRe name) s = some m →
      includes s (utf16 (name ++ "=")) = true := by
  intro s
  induction s with
  | nil =>
    intro m h
    exact matchHere_attrRe_isPrefixOf name [] m (by simpa [search] using h)
  | cons c cs ih =>
    intro m h
    unfold search at h
    unfold includes
    split at h
    · rename_i m2 hm
      simp [matchHere_attrRe_isPrefixOf name _ m2 hm]
    · simp [ih m h]

/-- A tag in which the text `name=` does not occur has no value extracted for
the attribute `name`. -/
theorem group1_attrRe_none_of_not_includes (name : String) (tag : JSString)
    (h : includes tag (utf16 (name ++ "=")) = false) : group1 (attrRe name) tag = none := by
  unfold group1
  split
  · rename_i m hm
    rw [search_attrRe_includes name tag m hm] at h
    exact absurd h (by simp)
  · rfl

/-! ## Matching at a known place of a text -/

theorem includes_iff_occurs (s sub : JSString) : includes s sub = true ↔ sub <:+: s := by
  induction s with
  | nil =>
    simp only [includes, List.isPrefixOf_iff_prefix]
    constructor
    · intro h; exact h.isInfix
    · intro h
      have : sub = [] := List.eq_nil_of_infix_nil h
      subst this
      exact List.nil_prefix
  | cons c cs ih =>
    simp only [includes, Bool.or_eq_true, List.isPrefixOf_iff_prefix, ih, List.infix_cons_iff]

theorem not_infix_of_includes {s sub : JSString} (h : includes s sub = false) :
    ¬ sub <:+: s := by
  intro hi
  rw [(includes_iff_occurs s sub).mpr hi] at h
  exact absurd h (by simp)

theorem stripLit_append (l s : JSString) : stripLit l (l ++ s) = some s := by
  induction l with
  | nil => cases s <;> rfl
  | cons a l ih => simp [stripLit, ih]

theorem stripLit_some_prefix {l s r : JSString} (h : stripLit l s = some r) : l <+: s :=
  List.isPrefixOf_iff_prefix.mp (stripLit_some_isPrefixOf l s r h)

/-- A greedy repetition that can take the whole run `run` of units of the
class, is stopped there by the text, and whose continuation succeeds there,
returns what the continuation returns. -/
theorem greedy_max {α : Type} (p : Nat → Bool) (k : JSString → JSString → Option α)
    (rest : JSString) (r : α) (hrest : ∀ c t, rest = c :: t → p c = false) :
    ∀ (run acc : JSString), (∀ x ∈ run, p x = true) → k (acc ++ run) rest = some r →
      greedy p k acc (run ++ rest) = some r := by
  intro run
  induction run with
  | nil =>
    intro acc _ hk
    simp only [List.append_nil] at hk
    cases rest with
    | nil => simpa [greedy] using hk
    | cons c t =>
      have hc := hrest c t rfl
      simp [greedy, hc, hk]
  | cons x run ih =>
    intro acc hrun hk
    have hx : p x = true := hrun x (List.mem_cons_self x run)
    have hk2 : k (acc ++ [x] ++ run) rest = some r := by simpa using hk
    have := ih (acc ++ [x]) (fun y hy => hrun y (List.mem_cons_of_mem x hy)) hk2
    simp [greedy, hx, this]

theorem search_of_matchHere {re : List Item} {s : JSString} {m : Match}
    (h : matchHere re s = some m) : search re s = some m := by
  cases s with
  | nil => simpa [search] using h
  | cons c cs => simp [search, h]

/-- Places of a text at which the pattern does not match are passed over by the
leftmost search. -/
theorem search_skip (re : List Item) (s : JSString) :
    ∀ P : JSString, (∀ P1 P2, P = P1 ++ P2 → P2 ≠ [] → matchHere re (P2 ++ s) = none) →
      search re (P ++ s) = search re s := by
  intro P
  induction P with
  | nil => intro _; rfl
  | cons c P ih =>
    intro h
    have h0 : matchHere re ((c :: P) ++ s) = none := h [] (c :: P) rfl (by simp)
    have h1 : search re (P ++ s) = search re s :=
      ih (fun P1 P2 hP hne => h (c :: P1) P2 (by simp [hP]) hne)
    simp only [List.cons_append] at h0 ⊢
    rw [search, h0, h1]

/-- The same for the scan with the `g` flag. -/
theorem matchAllFrom_skip (re : List Item) (s : JSString) :
    ∀ P : JSString, (∀ P1 P2, P = P1 ++ P2 → P2 ≠ [] → matchHere re (P2 ++ s) = none) →
      matchAllFrom re (P ++ s) 0 = matchAllFrom re s 0 := by
  intro P
  induction P with
  | nil => intro _; rfl
  | cons c P ih =>
    intro h
    have h0 : matchHere re ((c :: P) ++ s) = none := h [] (c :: P) rfl (by simp)
    have h1 : matchAllFrom re (P ++ s) 0 = matchAllFrom re s 0 :=
      ih (fun P1 P2 hP hne => h (c :: P1) P2 (by simp [hP]) hne)
    simp only [List.cons_append] at h0 ⊢
    rw [matchAllFrom, h0, h1]

/-- After a match the scan resumes right behind it. -/
theorem matchAllFrom_resume (re : List Item) (s : JSString) :
    ∀ xs : JSString, matchAllFrom re (xs ++ s) xs.length = matchAllFrom re s 0 := by
  intro xs
  induction xs with
  | nil => rfl
  | cons x xs ih =>
    show matchAllFrom re (x :: (xs ++ s)) (xs.length + 1) = matchAllFrom re s 0
    rw [matchAllFrom]
    exact ih

/-- A text `X` of which all but the last unit is the start of `s` cannot start
inside `P` in `P ++ s` unless it occurs in `P` followed by that start. -/
theorem not_prefix_inside {X D P s : JSString} (hlen : X.length = D.length + 1)
    (hD : D <+: s) (hno : ¬ X <:+: P ++ D) :
    ∀ P1 P2, P = P1 ++ P2 → P2 ≠ [] → ¬ X <+: P2 ++ s := by
  intro P1 P2 hP hne hX
  have h2 : P2 ++ D <+: P2 ++ s := (List.prefix_append_right_inj P2).mpr hD
  have hle : X.length ≤ (P2 ++ D).length := by
    have : 1 ≤ P2.length := List.length_pos.mpr hne
    simp only [List.length_append, hlen]
    omega
  have h3 : X <+: P2 ++ D := List.prefix_of_prefix_length_le hX h2 hle
  apply hno
  rw [hP, List.append_assoc]
  exact h3.isInfix.trans (List.suffix_append P1 (P2 ++ D)).isInfix

theorem quote_cases {q : Nat} (h : quote q = true) : q = 34 ∨ q = 39 := by
  simpa [quote] using h

theorem notQuote_of_quote {q : Nat} (h : quote q = true) : notQuote q = false := by
  simp only [quote] at h
  simp [notQuote, h]

/-- A match of an attribute pattern starts with `name=` and a quote. -/
theorem matchHere_attrRe_starts (name : String) (s : JSString) (m : Match)
    (h : matchHere (attrRe name) s = some m) :
    ∃ q, quote q = true ∧ utf16 (name ++ "=") ++ [q] <+: s := by
  unfold matchHere at h
  split at h
  · rename_i rest cap hm
    simp only [attrRe, matchItems] at hm
    split at hm
    · rename_i r hr
      have hp := stripLit_some_prefix hr
      obtain ⟨t, ht⟩ := hp
      split at hm
      · rename_i c cs
        split at hm
        · rename_i hq
          refine ⟨c, hq, ?_⟩
          have hr2 : c :: cs = t := by
            have := stripLit_append (utf16 (name ++ "=")) t
            rw [ht, hr] at this
            exact Option.some.inj this
          rw [← ht, ← hr2]
          exact ⟨cs, by simp⟩
        · exact absurd hm (by simp)
      · exact absurd hm (by simp)
    · exact absurd hm (by simp)
  · exact absurd h (by simp)

/-- At `name=` followed by a quoted, non-empty value without quote characters
the attribute pattern matches and captures the value. -/
theorem matchItems_attrRe_at (name : String) (q q2 : Nat) (v B : JSString)
    (hq : quote q = true) (hq2 : quote q2 = true) (hv : v ≠ [])
    (hvq : ∀ c ∈ v, notQuote c = true) :
    matchItems (attrRe name) none (utf16 (name ++ "=") ++ (q :: (v ++ (q2 :: B)))) =
      some (B, some v) := by
  cases v with
  | nil => exact absurd rfl hv
  | cons c cs =>
    have hc : notQuote c = true := hvq c (List.mem_cons_self c cs)
    have hg : greedy notQuote (fun m r => matchItems [Item.cls quote] (some m) r) [c]
        (cs ++ (q2 :: B)) = some (B, some (c :: cs)) := by
      apply greedy_max
      · intro d t hd
        cases hd
        exact notQuote_of_quote hq2
      · intro x hx
        exact hvq x (List.mem_cons_of_mem c hx)
      · simp [matchItems, hq2]
    simp only [attrRe, matchItems, stripLit_append, hq, if_true, List.cons_append, hc]
    exact hg

/-- The scanner's lookup finds an attribute written in full. -/
theorem group1_of_writtenAttr {name : String} {tag v : JSString}
    (h : WrittenAttr name tag v) : group1 (attrRe name) tag = some v := by
  obtain ⟨A, B, w, q, q2, htag, _, hq, hq2, hv, hvq, h34, h39⟩ := h
  have hsplit : tag = (A ++ [w]) ++ (utf16 (name ++ "=") ++ (q :: (v ++ (q2 :: B)))) := by
    rw [htag]; simp
  have hpre : A ++ (w :: utf16 (name ++ "=")) = (A ++ [w]) ++ utf16 (name ++ "=") := by simp
  rw [hpre] at h34 h39
  have hskip : search (attrRe name) tag =
      search (attrRe name) (utf16 (name ++ "=") ++ (q :: (v ++ (q2 :: B)))) := by
    rw [hsplit]
    apply search_skip
    intro P1 P2 hP hne
    cases hm : matchHere (attrRe name)
        (P2 ++ (utf16 (name ++ "=") ++ (q :: (v ++ (q2 :: B))))) with
    | none => rfl
    | some m =>
      exfalso
      obtain ⟨q3, hq3, hpfx⟩ := matchHere_attrRe_starts name _ m hm
      have hno : ¬ utf16 (name ++ "=") ++ [q3] <:+: (A ++ [w]) ++ utf16 (name ++ "=") := by
        rcases quote_cases hq3 with rfl | rfl
        · exact not_infix_of_includes h34
        · exact not_infix_of_includes h39
      exact not_prefix_inside (by simp) (List.prefix_append _ _) hno P1 P2 hP hne hpfx
  have hm := matchItems_attrRe_at name q q2 v B hq hq2 hv hvq
  have hhere : matchHere (attrRe name) (utf16 (name ++ "=") ++ (q :: (v ++ (q2 :: B)))) =
      some ⟨(utf16 (name ++ "=") ++ (q :: (v ++ (q2 :: B)))).take
        ((utf16 (name ++ "=") ++ (q :: (v ++ (q2 :: B)))).length - B.length), some v⟩ := by
    simp only [matchHere, hm]
  rw [group1, hskip, search_of_matchHere hhere]

/-! ## Exit code -/

/-- C1 (as stated, refuted): a scan whose only finding is a warning, once for a
`<link>` with integrity and no crossorigin and once for an external `@import`,
has an empty errors list and still exits with code 1. -/
theorem exitCode_warning_only_is_one :
    (scan (utf16 "<link href=\"https://cdn.example.com/a.css\" integrity=\"sha384-abc\">")
        []).errors = [] ∧
    exitCode (scan (utf16 "<link href=\"https://cdn.example.com/a.css\" integrity=\"sha384-abc\">")
        []) = 1 ∧
    (scan [] (utf16 "@import url(\"https://cdn.example.com/a.css\");")).errors = [] ∧
    exitCode (scan [] (utf16 "@import url(\"https://cdn.example.com/a.css\");")) = 1 := by
  decide

/-- C1 (amended): for every markup text and stylesheet text the scanner exits
with code 0 if and only if both its errors list and its warnings list are
empty, and with code 1 otherwise. -/
theorem exitCode_zero_iff_no_errors_no_warnings (indexHtml globalScss : JSString) :
    (exitCode (scan indexHtml globalScss) = 0 ↔
      (scan indexHtml globalScss).errors = [] ∧ (scan indexHtml globalScss).warnings = []) ∧
    (exitCode (scan indexHtml globalScss) = 1 ↔
      ¬ ((scan indexHtml globalScss).errors = [] ∧ (scan indexHtml globalScss).warnings = [])) := by
  generalize scan indexHtml globalScss = r
  unfold exitCode
  by_cases h : r.errors = [] ∧ r.warnings = []
  · simp [h.1, h.2]
  · have h2 : ¬ (r.errors.length = 0 ∧ r.warnings.length = 0) := by
      simpa [List.length_eq_zero] using h
    simp [h, h2]

/-! ## Classification of one tag, in terms of what the lookups return -/

/-- With an absolute URL and no integrity value found, the callbacks push the
missing-integrity error and nothing else. -/
theorem step_missing_integrity_of_lookup (r : Report) (tag url : JSString)
    (hurl : isHttp url = true) (hint : group1 (attrRe "integrity") tag = none) :
    (group1 (attrRe "href") tag = some url →
      linkStep r tag = { r with errors := r.errors ++
        [⟨utf16 "link", url, msgLinkMissing, some (snippet tag), none⟩] }) ∧
    (group1 (attrRe "src") tag = some url →
      scriptStep r tag = { r with errors := r.errors ++
        [⟨utf16 "script", url, msgScriptMissing, some (snippet tag), none⟩] }) := by
  constructor
  · intro h
    simp [linkStep, h, hint, isCDN_some hurl, truthy_none]
  · intro h
    simp [scriptStep, h, hint, isCDN_some hurl, truthy_none]

/-- With an absolute URL and an integrity value found that contains
`PLACEHOLDER`, the callbacks push the placeholder error and nothing else. -/
theorem step_placeholder_of_lookup (r : Report) (tag url v : JSString)
    (hurl : isHttp url = true) (hint : group1 (attrRe "integrity") tag = some v)
    (hph : includes v placeholder = true) :
    (group1 (attrRe "href") tag = some url →
      linkStep r tag = { r with errors := r.errors ++
        [⟨utf16 "link", url, msgLinkPlaceholder, some (snippet tag), none⟩] }) ∧
    (group1 (attrRe "src") tag = some url →
      scriptStep r tag = { r with errors := r.errors ++
        [⟨utf16 "script", url, msgScriptPlaceholder, some (snippet tag), none⟩] }) := by
  have ht := truthy_of_ne_nil (includes_placeholder_ne_nil hph)
  constructor
  · intro h
    simp [linkStep, h, hint, isCDN_some hurl, ht, hph]
  · intro h
    simp [scriptStep, h, hint, isCDN_some hurl, ht, hph]

/-- With an absolute URL, an integrity value found that does not contain
`PLACEHOLDER` and a crossorigin value found, the callbacks push one success
entry and nothing else. -/
theorem step_success_of_lookup (r : Report) (tag url v c : JSString)
    (hurl : isHttp url = true) (hint : group1 (attrRe "integrity") tag = some v)
    (hph : includes v placeholder = false)
    (hco : group1 (attrRe "crossorigin") tag = some c) :
    (group1 (attrRe "href") tag = some url →
      linkStep r tag = { r with success := r.success ++
        [⟨utf16 "link", url, msgLinkOk, none, none⟩] }) ∧
    (group1 (attrRe "src") tag = some url →
      scriptStep r tag = { r with success := r.success ++
        [⟨utf16 "script", url, msgScriptOk, none, none⟩] }) := by
  have hv := truthy_of_ne_nil (group1_attrRe_ne_nil hint)
  have hc := truthy_of_ne_nil (group1_attrRe_ne_nil hco)
  constructor
  · intro h
    simp [linkStep, h, hint, hco, isCDN_some hurl, hv, hc, hph]
  · intro h
    simp [scriptStep, h, hint, hco, isCDN_some hurl, hv, hc, hph]

/-- With an absolute URL, an integrity value found that does not contain
`PLACEHOLDER` and no crossorigin value found, the callbacks push the
missing-crossorigin warning and nothing else. -/
theorem step_warning_of_lookup (r : Report) (tag url v : JSString)
    (hurl : isHttp url = true) (hint : group1 (attrRe "integrity") tag = some v)
    (hph : includes v placeholder = false)
    (hco : group1 (attrRe "crossorigin") tag = none) :
    (group1 (attrRe "href") tag = some url →
      linkStep r tag = { r with warnings := r.warnings ++
        [⟨utf16 "link", url, msgLinkCrossorigin, some (snippet tag), none⟩] }) ∧
    (group1 (attrRe "src") tag = some url →
      scriptStep r tag = { r with warnings := r.warnings ++
        [⟨utf16 "script", url, msgScriptCrossorigin, some (snippet tag), none⟩] }) := by
  have hv := truthy_of_ne_nil (group1_attrRe_ne_nil hint)
  constructor
  · intro h
    simp [linkStep, h, hint, hco, isCDN_some hurl, hv, hph, truthy_none]
  · intro h
    simp [scriptStep, h, hint, hco, isCDN_some hurl, hv, hph, truthy_none]

/-! ## Attribute names matched inside longer names -/

/-- C2 (the code at the failing input): the script tag
`<script data-src="local.js" src="https://cdn.example.com/a.js">` is extracted,
its `src` is an absolute URL and the text `integrity` occurs nowhere in it, yet
the `src` lookup returns `local.js` from `data-src`, the scan reports nothing
and the exit code is 0; and a `<link>` with an absolute `href` whose only
integrity-like attributes are `data-integrity` and `data-crossorigin` is
reported as a success. -/
theorem data_src_hides_missing_integrity :
    scriptTags (utf16 "<script data-src=\"local.js\" src=\"https://cdn.example.com/a.js\"></script>") =
      [utf16 "<script data-src=\"local.js\" src=\"https://cdn.example.com/a.js\">"] ∧
    includes (utf16 "<script data-src=\"local.js\" src=\"https://cdn.example.com/a.js\">")
      (utf16 " src=\"https://cdn.example.com/a.js\"") = true ∧
    includes (utf16 "<script data-src=\"local.js\" src=\"https://cdn.example.com/a.js\">")
      (utf16 "integrity") = false ∧
    group1 (attrRe "src")
      (utf16 "<script data-src=\"local.js\" src=\"https://cdn.example.com/a.js\">") =
      some (utf16 "local.js") ∧
    scan (utf16 "<script data-src=\"local.js\" src=\"https://cdn.example.com/a.js\"></script>") [] =
      emptyReport ∧
    exitCode (scan
      (utf16 "<script data-src=\"local.js\" src=\"https://cdn.example.com/a.js\"></script>") []) = 0 ∧
    scan (utf16 "<link href=\"https://cdn.example.com/a.css\" data-integrity=\"sha384-abc\" data-crossorigin=\"anonymous\">") [] =
      ⟨[], [], [⟨utf16 "link", utf16 "https://cdn.example.com/a.css", msgLinkOk, none, none⟩]⟩ := by
  decide

/-- C3 (the code at the failing input): in
`<link href="https://cdn.example.com/a.css" data-integrity="x"
integrity="sha384-PLACEHOLDERXXX" crossorigin="anonymous">` the integrity
attribute holds a placeholder, yet the integrity lookup returns `x` from
`data-integrity` and the tag is reported as a success, with no error; the same
tag without the `data-integrity` attribute is reported as the placeholder
error. -/
theorem data_integrity_hides_placeholder :
    group1 (attrRe "integrity")
      (utf16 "<link href=\"https://cdn.example.com/a.css\" data-integrity=\"x\" integrity=\"sha384-PLACEHOLDERXXX\" crossorigin=\"anonymous\">") =
      some (utf16 "x") ∧
    scan (utf16 "<link href=\"https://cdn.example.com/a.css\" data-integrity=\"x\" integrity=\"sha384-PLACEHOLDERXXX\" crossorigin=\"anonymous\">") [] =
      ⟨[], [], [⟨utf16 "link", utf16 "https://cdn.example.com/a.css", msgLinkOk, none, none⟩]⟩ ∧
    exitCode (scan (utf16 "<link href=\"https://cdn.example.com/a.css\" data-integrity=\"x\" integrity=\"sha384-PLACEHOLDERXXX\" crossorigin=\"anonymous\">") []) = 0 ∧
    (scan (utf16 "<link href=\"https://cdn.example.com/a.css\" integrity=\"sha384-PLACEHOLDERXXX\" crossorigin=\"anonymous\">") []).errors.map Entry.message =
      [msgLinkPlaceholder] := by
  decide

/-- C9 (the code at the failing input): for
`<link data-href="https://cdn.example.com/a.css" href="/local.css">`, whose
`href` is root-relative, the `href` lookup returns the URL of `data-href` and
the scan pushes a missing-integrity error for it and exits with code 1; the
same tag without the `data-href` attribute adds nothing. -/
theorem data_href_reports_local_link :
    includes (utf16 "<link data-href=\"https://cdn.example.com/a.css\" href=\"/local.css\">")
      (utf16 " href=\"/local.css\"") = true ∧
    group1 (attrRe "href")
      (utf16 "<link data-href=\"https://cdn.example.com/a.css\" href=\"/local.css\">") =
      some (utf16 "https://cdn.example.com/a.css") ∧
    scan (utf16 "<link data-href=\"https://cdn.example.com/a.css\" href=\"/local.css\">") [] =
      ⟨[⟨utf16 "link", utf16 "https://cdn.example.com/a.css", msgLinkMissing,
          some (snippet
            (utf16 "<link data-href=\"https://cdn.example.com/a.css\" href=\"/local.css\">")),
          none⟩], [], []⟩ ∧
    exitCode (scan
      (utf16 "<link data-href=\"https://cdn.example.com/a.css\" href=\"/local.css\">") []) = 1 ∧
    scan (utf16 "<link href=\"/local.css\">") [] = emptyReport := by
  decide

/-- C10 (the code at the failing input): the markup
`<link href="https://cdn.example.com/a.css"><script data-src="local.js"
src="https://cdn.example.com/a.js"></script>` has two extracted references with
an absolute URL, one `<link>` and one `<script src>`, and the three lists hold
one entry in all, the one of the `<link>`. -/
theorem data_src_script_is_not_counted :
    linkTags (utf16 "<link href=\"https://cdn.example.com/a.css\"><script data-src=\"local.js\" src=\"https://cdn.example.com/a.js\"></script>") =
      [utf16 "<link href=\"https://cdn.example.com/a.css\">"] ∧
    scriptTags (utf16 "<link href=\"https://cdn.example.com/a.css\"><script data-src=\"local.js\" src=\"https://cdn.example.com/a.js\"></script>") =
      [utf16 "<script data-src=\"local.js\" src=\"https://cdn.example.com/a.js\">"] ∧
    (scan (utf16 "<link href=\"https://cdn.example.com/a.css\"><script data-src=\"local.js\" src=\"https://cdn.example.com/a.js\"></script>") []).errors.map Entry.url =
      [utf16 "https://cdn.example.com/a.css"] ∧
    (scan (utf16 "<link href=\"https://cdn.example.com/a.css\"><script data-src=\"local.js\" src=\"https://cdn.example.com/a.js\"></script>") []).warnings = [] ∧
    (scan (utf16 "<link href=\"https://cdn.example.com/a.css\"><script data-src=\"local.js\" src=\"https://cdn.example.com/a.js\"></script>") []).success = [] ∧
    includes (utf16 "<script data-src=\"local.js\" src=\"https://cdn.example.com/a.js\">")
      (utf16 " src=\"https://cdn.example.com/a.js\"") = true ∧
    includes (utf16 "<link href=\"https://cdn.example.com/a.css\">")
      (utf16 " href=\"https://cdn.example.com/a.css\"") = true := by
  decide

/-! ## Classification of a tag whose attributes are written in full -/

/-- A tag whose URL attribute is written in full with a URL starting with
`http://` or `https://`, and in which the text `integrity=` occurs nowhere,
adds the missing-integrity error and nothing else. -/
theorem written_url_without_integrity_is_error (r : Report) (tag url : JSString)
    (hurl : isHttp url = true) (hint : includes tag (utf16 "integrity=") = false) :
    (WrittenAttr "href" tag url →
      linkStep r tag = { r with errors := r.errors ++
        [⟨utf16 "link", url, msgLinkMissing, some (snippet tag), none⟩] }) ∧
    (WrittenAttr "src" tag url →
      scriptStep r tag = { r with errors := r.errors ++
        [⟨utf16 "script", url, msgScriptMissing, some (snippet tag), none⟩] }) := by
  have key := step_missing_integrity_of_lookup r tag url hurl
    (group1_attrRe_none_of_not_includes "integrity" tag hint)
  exact ⟨fun h => key.1 (group1_of_writtenAttr h), fun h => key.2 (group1_of_writtenAttr h)⟩

/-- A tag whose URL attribute and integrity attribute are written in full, with
a URL starting with `http://` or `https://` and an integrity value containing
`PLACEHOLDER`, adds the placeholder error and nothing else, whatever it says
about crossorigin. -/
theorem written_placeholder_is_error (r : Report) (tag url v : JSString)
    (hurl : isHttp url = true) (hint : WrittenAttr "integrity" tag v)
    (hph : includes v placeholder = true) :
    (WrittenAttr "href" tag url →
      linkStep r tag = { r with errors := r.errors ++
        [⟨utf16 "link", url, msgLinkPlaceholder, some (snippet tag), none⟩] }) ∧
    (WrittenAttr "src" tag url →
      scriptStep r tag = { r with errors := r.errors ++
        [⟨utf16 "script", url, msgScriptPlaceholder, some (snippet tag), none⟩] }) := by
  have key := step_placeholder_of_lookup r tag url v hurl (group1_of_writtenAttr hint) hph
  exact ⟨fun h => key.1 (group1_of_writtenAttr h), fun h => key.2 (group1_of_writtenAttr h)⟩

/-- A tag whose URL attribute is written in full with a URL that starts with
neither `http://` nor `https://` adds nothing. -/
theorem written_relative_url_adds_nothing (r : Report) (tag url : JSString)
    (hurl : isHttp url = false) :
    (WrittenAttr "href" tag url → linkStep r tag = r) ∧
    (WrittenAttr "src" tag url → scriptStep r tag = r) := by
  constructor
  · intro h
    simp [linkStep, group1_of_writtenAttr h, isCDN_some_iff, hurl]
  · intro h
    simp [scriptStep, group1_of_writtenAttr h, isCDN_some_iff, hurl]

/-- C4 (as stated, refuted): a `<link>` with an absolute URL and a
non-placeholder integrity value whose crossorigin attribute is present as
`crossorigin=""`, or present without a value, or written
`crossorigin = "anonymous"`, produces no success entry but the
missing-crossorigin warning; and with the integrity attribute present as
`integrity=""` and `crossorigin="anonymous"` it produces the missing-integrity
error. -/
theorem crossorigin_empty_or_valueless_is_warning :
    linkStep emptyReport (utf16 "<link href=\"https://fonts.example.com/a.css\" integrity=\"sha384-abc\" crossorigin=\"\">") =
      { emptyReport with warnings :=
        [⟨utf16 "link", utf16 "https://fonts.example.com/a.css", msgLinkCrossorigin,
          some (snippet (utf16 "<link href=\"https://fonts.example.com/a.css\" integrity=\"sha384-abc\" crossorigin=\"\">")),
          none⟩] } ∧
    linkStep emptyReport (utf16 "<link href=\"https://fonts.example.com/a.css\" integrity=\"sha384-abc\" crossorigin>") =
      { emptyReport with warnings :=
        [⟨utf16 "link", utf16 "https://fonts.example.com/a.css", msgLinkCrossorigin,
          some (snippet (utf16 "<link href=\"https://fonts.example.com/a.css\" integrity=\"sha384-abc\" crossorigin>")),
          none⟩] } ∧
    linkStep emptyReport (utf16 "<link href=\"https://fonts.example.com/a.css\" integrity=\"sha384-abc\" crossorigin = \"anonymous\">") =
      { emptyReport with warnings :=
        [⟨utf16 "link", utf16 "https://fonts.example.com/a.css", msgLinkCrossorigin,
          some (snippet (utf16 "<link href=\"https://fonts.example.com/a.css\" integrity=\"sha384-abc\" crossorigin = \"anonymous\">")),
          none⟩] } ∧
    linkStep emptyReport (utf16 "<link href=\"https://fonts.example.com/a.css\" integrity=\"\" crossorigin=\"anonymous\">") =
      { emptyReport with errors :=
        [⟨utf16 "link", utf16 "https://fonts.example.com/a.css", msgLinkMissing,
          some (snippet (utf16 "<link href=\"https://fonts.example.com/a.css\" integrity=\"\" crossorigin=\"anonymous\">")),
          none⟩] } := by
  decide

/-- C4 (amended): a tag in which the URL attribute (`href` for a `<link>`,
`src` for a `<script>`), `integrity` and `crossorigin` are each written in full
(white space, the name, `=`, a quote, a non-empty value without quote
characters, a quote, at the first place of the tag where the name and `=` are
followed by a quote), with a URL starting with `http://` or `https://` and an
integrity value that does not contain `PLACEHOLDER`, adds exactly one entry to
the success list and nothing to the errors or warnings lists; the crossorigin
value `c` is arbitrary, it is not validated. -/
theorem written_complete_sri_is_success (r : Report) (tag url v c : JSString)
    (hurl : isHttp url = true) (hint : WrittenAttr "integrity" tag v)
    (hph : includes v placeholder = false) (hco : WrittenAttr "crossorigin" tag c) :
    (WrittenAttr "href" tag url →
      linkStep r tag = { r with success := r.success ++
        [⟨utf16 "link", url, msgLinkOk, none, none⟩] }) ∧
    (WrittenAttr "src" tag url →
      scriptStep r tag = { r with success := r.success ++
        [⟨utf16 "script", url, msgScriptOk, none, none⟩] }) := by
  have key := step_success_of_lookup r tag url v c hurl (group1_of_writtenAttr hint) hph
    (group1_of_writtenAttr hco)
  exact ⟨fun h => key.1 (group1_of_writtenAttr h), fun h => key.2 (group1_of_writtenAttr h)⟩

/-- C4 (amended) at a `<link>` with `crossorigin="anonymous"` and a `<script src>` with
`crossorigin="use-credentials"`. -/
theorem written_complete_sri_is_success_witness :
    linkStep emptyReport (utf16 "<link href=\"https://fonts.example.com/a.css\" integrity=\"sha384-abc\" crossorigin=\"anonymous\">") =
      { emptyReport with success := emptyReport.success ++
        [⟨utf16 "link", utf16 "https://fonts.example.com/a.css", msgLinkOk, none, none⟩] } ∧
    scriptStep emptyReport (utf16 "<script src=\"https://cdn.example.com/a.js\" integrity=\"sha384-abc\" crossorigin=\"use-credentials\">") =
      { emptyReport with success := emptyReport.success ++
        [⟨utf16 "script", utf16 "https://cdn.example.com/a.js", msgScriptOk, none, none⟩] } :=
  ⟨(written_complete_sri_is_success emptyReport (utf16 "<link href=\"https://fonts.example.com/a.css\" integrity=\"sha384-abc\" crossorigin=\"anonymous\">")
      (utf16 "https://fonts.example.com/a.css") (utf16 "sha384-abc") (utf16 "anonymous")
      (by decide)
      ⟨utf16 "<link href=\"https://fonts.example.com/a.css\"",
        utf16 " crossorigin=\"anonymous\">", 32, 34, 34,
        by decide, by decide, by decide, by decide, by decide, by decide, by decide, by decide⟩
      (by decide)
      ⟨utf16 "<link href=\"https://fonts.example.com/a.css\" integrity=\"sha384-abc\"",
        utf16 ">", 32, 34, 34,
        by decide, by decide, by decide, by decide, by decide, by decide, by decide,
        by decide⟩).1
      ⟨utf16 "<link", utf16 " integrity=\"sha384-abc\" crossorigin=\"anonymous\">", 32, 34, 34,
        by decide, by decide, by decide, by decide, by decide, by decide, by decide, by decide⟩,
   (written_complete_sri_is_success emptyReport (utf16 "<script src=\"https://cdn.example.com/a.js\" integrity=\"sha384-abc\" crossorigin=\"use-credentials\">")
      (utf16 "https://cdn.example.com/a.js") (utf16 "sha384-abc") (utf16 "use-credentials")
      (by decide)
      ⟨utf16 "<script src=\"https://cdn.example.com/a.js\"",
        utf16 " crossorigin=\"use-credentials\">", 32, 34, 34,
        by decide, by decide, by decide, by decide, by decide, by decide, by decide, by decide⟩
      (by decide)
      ⟨utf16 "<script src=\"https://cdn.example.com/a.js\" integrity=\"sha384-abc\"",
        utf16 ">", 32, 34, 34,
        by decide, by decide, by decide, by decide, by decide, by decide, by decide,
        by decide⟩).2
      ⟨utf16 "<script", utf16 " integrity=\"sha384-abc\" crossorigin=\"use-credentials\">",
        32, 34, 34,
        by decide, by decide, by decide, by decide, by decide, by decide, by decide, by decide⟩⟩

/-- C5 (as stated, refuted): a `<link>` with an absolute URL, an integrity
attribute that is present with the empty value (which does not contain
`PLACEHOLDER`) and no crossorigin attribute adds the missing-integrity error,
not the missing-crossorigin warning. -/
theorem empty_integrity_is_error_not_warning :
    linkStep emptyReport (utf16 "<link href=\"https://fonts.example.com/a.css\" integrity=\"\">") =
      { emptyReport with errors :=
        [⟨utf16 "link", utf16 "https://fonts.example.com/a.css", msgLinkMissing,
          some (snippet (utf16 "<link href=\"https://fonts.example.com/a.css\" integrity=\"\">")),
          none⟩] } ∧
    includes [] placeholder = false := by
  decide

/-- C5 (amended): a tag in which the URL attribute (`href` for a `<link>`,
`src` for a `<script>`) and `integrity` are each written in full (white space,
the name, `=`, a quote, a non-empty value without quote characters, a quote,
at the first place of the tag where the name and `=` are followed by a quote),
with a URL starting with `http://` or `https://` and an integrity value that
does not contain `PLACEHOLDER`, and in which the text `crossorigin=` occurs
nowhere, adds exactly one entry, the missing-crossorigin warning, to the
warnings list and nothing to the errors or success lists. -/
theorem written_integrity_without_crossorigin_is_warning (r : Report) (tag url v : JSString)
    (hurl : isHttp url = true) (hint : WrittenAttr "integrity" tag v)
    (hph : includes v placeholder = false)
    (hco : includes tag (utf16 "crossorigin=") = false) :
    (WrittenAttr "href" tag url →
      linkStep r tag = { r with warnings := r.warnings ++
        [⟨utf16 "link", url, msgLinkCrossorigin, some (snippet tag), none⟩] }) ∧
    (WrittenAttr "src" tag url →
      scriptStep r tag = { r with warnings := r.warnings ++
        [⟨utf16 "script", url, msgScriptCrossorigin, some (snippet tag), none⟩] }) := by
  have key := step_warning_of_lookup r tag url v hurl (group1_of_writtenAttr hint) hph
    (group1_attrRe_none_of_not_includes "crossorigin" tag hco)
  exact ⟨fun h => key.1 (group1_of_writtenAttr h), fun h => key.2 (group1_of_writtenAttr h)⟩

/-- C5 (amended) at a `<link>` and a `<script src>` tag with integrity and no crossorigin. -/
theorem written_integrity_without_crossorigin_is_warning_witness :
    linkStep emptyReport (utf16 "<link href=\"https://fonts.example.com/a.css\" integrity=\"sha384-abc\">") =
      { emptyReport with warnings := emptyReport.warnings ++
        [⟨utf16 "link", utf16 "https://fonts.example.com/a.css", msgLinkCrossorigin,
          some (snippet (utf16 "<link href=\"https://fonts.example.com/a.css\" integrity=\"sha384-abc\">")), none⟩] } ∧
    scriptStep emptyReport (utf16 "<script src=\"https://cdn.example.com/a.js\" integrity=\"sha384-abc\">") =
      { emptyReport with warnings := emptyReport.warnings ++
        [⟨utf16 "script", utf16 "https://cdn.example.com/a.js", msgScriptCrossorigin,
          some (snippet (utf16 "<script src=\"https://cdn.example.com/a.js\" integrity=\"sha384-abc\">")), none⟩] } :=
  ⟨(written_integrity_without_crossorigin_is_warning emptyReport (utf16 "<link href=\"https://fonts.example.com/a.css\" integrity=\"sha384-abc\">")
      (utf16 "https://fonts.example.com/a.css") (utf16 "sha384-abc")
      (by decide)
      ⟨utf16 "<link href=\"https://fonts.example.com/a.css\"", utf16 ">", 32, 34, 34,
        by decide, by decide, by decide, by decide, by decide, by decide, by decide, by decide⟩
      (by decide) (by decide)).1
      ⟨utf16 "<link", utf16 " integrity=\"sha384-abc\">", 32, 34, 34,
        by decide, by decide, by decide, by decide, by decide, by decide, by decide, by decide⟩,
   (written_integrity_without_crossorigin_is_warning emptyReport (utf16 "<script src=\"https://cdn.example.com/a.js\" integrity=\"sha384-abc\">")
      (utf16 "https://cdn.example.com/a.js") (utf16 "sha384-abc")
      (by decide)
      ⟨utf16 "<script src=\"https://cdn.example.com/a.js\"", utf16 ">", 32, 34, 34,
        by decide, by decide, by decide, by decide, by decide, by decide, by decide, by decide⟩
      (by decide) (by decide)).2
      ⟨utf16 "<script", utf16 " integrity=\"sha384-abc\">", 32, 34, 34,
        by decide, by decide, by decide, by decide, by decide, by decide, by decide, by decide⟩⟩

/-! ## CDN configuration helpers -/

/-- C7 (as stated, refuted): for a config record whose crossorigin is
`"use-credentials"`, and for one without a crossorigin field, the attribute
bags do not carry `crossorigin = "anonymous"`. -/
theorem createCDN_crossorigin_not_forced :
    (createCDNLink ⟨some (utf16 "https://cdn.example.com/a.css"), some (utf16 "sha384-abc"),
        some (utf16 "use-credentials")⟩).crossorigin = some (utf16 "use-credentials") ∧
    (createCDNLink ⟨some (utf16 "https://cdn.example.com/a.css"), some (utf16 "sha384-abc"),
        some (utf16 "use-credentials")⟩).crossorigin ≠ some (utf16 "anonymous") ∧
    (createCDNScript ⟨some (utf16 "https://cdn.example.com/a.js"), some (utf16 "sha384-abc"),
        none⟩).crossorigin = none ∧
    (createCDNScript ⟨some (utf16 "https://cdn.example.com/a.js"), some (utf16 "sha384-abc"),
        none⟩).crossorigin ≠ some (utf16 "anonymous") := by
  decide

/-- C7 (amended): `createCDNLink` and `createCDNScript` return an attribute bag
whose crossorigin is the crossorigin field of the config record, unchanged,
with href / src equal to the url field, integrity equal to the integrity field
and `rel = "stylesheet"` for the link bag; for the shipped record
`CDN_CONFIG.googleFonts` the crossorigin of both bags is `"anonymous"`. -/
theorem createCDN_passes_config_through (config : CDNConfig) :
    createCDNLink config =
      ⟨utf16 "stylesheet", config.url, config.integrity, config.crossorigin⟩ ∧
    createCDNScript config = ⟨config.url, config.integrity, config.crossorigin⟩ ∧
    (createCDNLink googleFonts).crossorigin = some (utf16 "anonymous") ∧
    (createCDNScript googleFonts).crossorigin = some (utf16 "anonymous") :=
  ⟨rfl, rfl, rfl, rfl⟩

/-! ## The scan as a fold over the discovered references -/

theorem isCDN_eq (o : Option JSString) :
    isCDN o = (match o with | some u => isHttp u | none => false) := by
  cases o with
  | none => rfl
  | some u => exact isCDN_some_iff u

theorem isCDN_getD {o : Option JSString} (h : isCDN o = true) : isHttp (o.getD []) = true := by
  cases o with
  | none => exact absurd h (by decide)
  | some u => rw [isCDN_some_iff] at h; exact h

theorem Report.empty_append (r : Report) : emptyReport.append r = r := by
  simp [Report.append, emptyReport]

/-- What a reference adds alone: nothing when it is out of scope, and a single
entry with an absolute URL in exactly one of the three arrays when it is in
scope. -/
theorem contribution_cases (d : Kind × JSString) :
    (inScope d = false ∧ contribution d = emptyReport) ∨
    (inScope d = true ∧ ∃ e : Entry, isHttp e.url = true ∧
      (contribution d = ⟨[e], [], []⟩ ∨ contribution d = ⟨[], [e], []⟩ ∨
        contribution d = ⟨[], [], [e]⟩)) := by
  obtain ⟨k, t⟩ := d
  cases k
  · by_cases h : isCDN (group1 (attrRe "href") t) = true
    · right
      refine ⟨by simp only [inScope, extractedUrl]; rw [← isCDN_eq]; exact h, ?_⟩
      have hu := isCDN_getD h
      simp only [contribution, step, linkStep, h, if_true, emptyReport, List.nil_append]
      split_ifs
      · exact ⟨_, hu, Or.inl rfl⟩
      · exact ⟨_, hu, Or.inl rfl⟩
      · exact ⟨_, hu, Or.inr (Or.inl rfl)⟩
      · exact ⟨_, hu, Or.inr (Or.inr rfl)⟩
    · left
      refine ⟨by simp only [inScope, extractedUrl]; rw [← isCDN_eq]; simpa using h, ?_⟩
      simp only [contribution, step, linkStep, h]
      rfl
  · by_cases h : isCDN (group1 (attrRe "src") t) = true
    · right
      refine ⟨by simp only [inScope, extractedUrl]; rw [← isCDN_eq]; exact h, ?_⟩
      have hu := isCDN_getD h
      simp only [contribution, step, scriptStep, h, if_true, emptyReport, List.nil_append]
      split_ifs
      · exact ⟨_, hu, Or.inl rfl⟩
      · exact ⟨_, hu, Or.inl rfl⟩
      · exact ⟨_, hu, Or.inr (Or.inl rfl)⟩
      · exact ⟨_, hu, Or.inr (Or.inr rfl)⟩
    · left
      refine ⟨by simp only [inScope, extractedUrl]; rw [← isCDN_eq]; simpa using h, ?_⟩
      simp only [contribution, step, scriptStep, h]
      rfl
  · by_cases h : isCDN (group1 urlRe t) = true
    · right
      refine ⟨by simp only [inScope, extractedUrl]; rw [← isCDN_eq]; exact h, ?_⟩
      have hu := isCDN_getD h
      simp only [contribution, step, importStep, h, if_true, emptyReport, List.nil_append]
      exact ⟨_, hu, Or.inr (Or.inl rfl)⟩
    · left
      refine ⟨by simp only [inScope, extractedUrl]; rw [← isCDN_eq]; simpa using h, ?_⟩
      simp only [contribution, step, importStep, h]
      rfl

/-- Every callback only appends: running it on `r` is `r` followed by what the
reference adds alone. -/
theorem step_eq_append (r : Report) (d : Kind × JSString) :
    step r d = r.append (contribution d) := by
  obtain ⟨k, t⟩ := d
  cases k
  · simp only [contribution, step, linkStep]
    split_ifs <;> simp [Report.append, emptyReport]
  · simp only [contribution, step, scriptStep]
    split_ifs <;> simp [Report.append, emptyReport]
  · simp only [contribution, step, importStep]
    split_ifs <;> simp [Report.append, emptyReport]

theorem foldl_step_eq (ds : List (Kind × JSString)) :
    ∀ r : Report, ds.foldl step r =
      r.append ⟨ds.flatMap (fun d => (contribution d).errors),
        ds.flatMap (fun d => (contribution d).warnings),
        ds.flatMap (fun d => (contribution d).success)⟩ := by
  induction ds with
  | nil => intro r; simp [Report.append]
  | cons d ds ih =>
    intro r
    rw [List.foldl_cons, ih, step_eq_append]
    simp [Report.append, List.append_assoc]

theorem scan_eq_foldl (indexHtml globalScss : JSString) :
    scan indexHtml globalScss = (discovered indexHtml globalScss).foldl step emptyReport := by
  simp only [scan, discovered, List.foldl_append, List.foldl_map]
  rfl

theorem scan_eq_flatMap (indexHtml globalScss : JSString) :
    scan indexHtml globalScss =
      ⟨(discovered indexHtml globalScss).flatMap (fun d => (contribution d).errors),
        (discovered indexHtml globalScss).flatMap (fun d => (contribution d).warnings),
        (discovered indexHtml globalScss).flatMap (fun d => (contribution d).success)⟩ := by
  rw [scan_eq_foldl, foldl_step_eq, Report.empty_append]

theorem contribution_length (d : Kind × JSString) :
    (contribution d).errors.length + (contribution d).warnings.length +
      (contribution d).success.length = if inScope d = true then 1 else 0 := by
  rcases contribution_cases d with ⟨h, hc⟩ | ⟨h, e, _, hc | hc | hc⟩ <;>
    simp [h, hc, emptyReport]

theorem flatMap_contribution_length (ds : List (Kind × JSString)) :
    (ds.flatMap (fun d => (contribution d).errors)).length +
      (ds.flatMap (fun d => (contribution d).warnings)).length +
      (ds.flatMap (fun d => (contribution d).success)).length = (ds.filter inScope).length := by
  induction ds with
  | nil => simp
  | cons d ds ih =>
    have hd := contribution_length d
    simp only [List.flatMap_cons, List.length_append, List.filter_cons]
    split_ifs at hd ⊢ with h
    · simp only [List.length_cons]
      omega
    · omega

theorem entry_of_scan_isHttp (indexHtml globalScss : JSString) (e : Entry)
    (he : e ∈ (scan indexHtml globalScss).entries) : isHttp e.url = true := by
  rw [scan_eq_flatMap] at he
  simp only [Report.entries, List.mem_append, List.mem_flatMap] at he
  have key : ∀ d : Kind × JSString, e ∈ (contribution d).errors ∨
      e ∈ (contribution d).warnings ∨ e ∈ (contribution d).success → isHttp e.url = true := by
    intro d hd
    rcases contribution_cases d with ⟨_, hc⟩ | ⟨_, e2, he2, hc | hc | hc⟩ <;>
      simp [hc, emptyReport] at hd <;> (subst hd; exact he2)
  rcases he with (⟨d, _, hd⟩ | ⟨d, _, hd⟩) | ⟨d, _, hd⟩
  · exact key d (Or.inl hd)
  · exact key d (Or.inr (Or.inl hd))
  · exact key d (Or.inr (Or.inr hd))

theorem isCDN_false_of_not_http {o : Option JSString}
    (h : ∀ u, o = some u → isHttp u = false) : isCDN o = false := by
  cases o with
  | none => rfl
  | some u => rw [isCDN_some_iff]; exact h u rfl

theorem foldl_importStep_errors (ms : List JSString) :
    ∀ r : Report, (ms.foldl importStep r).errors = r.errors ∧
      (ms.foldl importStep r).success = r.success ∧
      (ms.foldl importStep r).warnings =
        r.warnings ++ ms.flatMap (fun m => (importStep emptyReport m).warnings) := by
  induction ms with
  | nil => intro r; simp
  | cons m ms ih =>
    intro r
    obtain ⟨h1, h2, h3⟩ := ih (importStep r m)
    have hm : (importStep r m).errors = r.errors ∧ (importStep r m).success = r.success ∧
        (importStep r m).warnings = r.warnings ++ (importStep emptyReport m).warnings := by
      simp only [importStep]
      split_ifs <;> simp [emptyReport]
    rw [List.foldl_cons, h1, h2, h3, hm.1, hm.2.1, hm.2.2]
    simp

/-! ## Import directives in a stylesheet text -/

/-- The errors and success lists of a scan do not depend on the stylesheet;
the warnings are those of the markup followed by what each match of the import
pattern adds, in order. -/
theorem scan_stylesheet_split (indexHtml globalScss : JSString) :
    (scan indexHtml globalScss).errors = (scan indexHtml []).errors ∧
    (scan indexHtml globalScss).success = (scan indexHtml []).success ∧
    (scan indexHtml globalScss).warnings = (scan indexHtml []).warnings ++
      (importMatches globalScss).flatMap (fun m => (importStep emptyReport m).warnings) := by
  have hnil : importMatches [] = [] := by decide
  simp only [scan, hnil, List.foldl_nil]
  exact foldl_importStep_errors (importMatches globalScss)
    ((scriptTags indexHtml).foldl scriptStep ((linkTags indexHtml).foldl linkStep emptyReport))

theorem utf16_import_lit : utf16 "@import" = [64, 105, 109, 112, 111, 114, 116] := by decide

theorem utf16_url_lit : utf16 "url(" = [117, 114, 108, 40] := by decide

theorem importDirective_append (ws u post : JSString) (q q2 : Nat) :
    importDirective ws q u q2 ++ post =
      utf16 "@import" ++ (ws ++ (utf16 "url(" ++ (q :: (u ++ (q2 :: (utf16 ")" ++ post)))))) := by
  simp [importDirective]

theorem matchHere_importRe_starts (s : JSString) (m : Match)
    (h : matchHere importRe s = some m) : utf16 "@import" <+: s := by
  unfold matchHere at h
  split at h
  · rename_i rest cap hm
    simp only [importRe, matchItems] at hm
    split at hm
    · rename_i r hr
      exact stripLit_some_prefix hr
    · exact absurd hm (by simp)
  · exact absurd h (by simp)

/-- At `url(`, a quote, a non-empty URL without quote characters, a quote and
`)`, the URL pattern matches and captures the URL. -/
theorem matchItems_urlRe_at (cap : Option JSString) (q q2 : Nat) (u rest : JSString)
    (hq : quote q = true) (hq2 : quote q2 = true) (hu : u ≠ [])
    (huq : ∀ c ∈ u, notQuote c = true) :
    matchItems urlRe cap (utf16 "url(" ++ (q :: (u ++ (q2 :: (utf16 ")" ++ rest))))) =
      some (rest, some u) := by
  cases u with
  | nil => exact absurd rfl hu
  | cons c cs =>
    have hc : notQuote c = true := huq c (List.mem_cons_self c cs)
    have hg : greedy notQuote
        (fun m r => matchItems [Item.cls quote, Item.lit (utf16 ")")] (some m) r) [c]
        (cs ++ (q2 :: (utf16 ")" ++ rest))) = some (rest, some (c :: cs)) := by
      apply greedy_max
      · intro d t hd
        cases hd
        exact notQuote_of_quote hq2
      · intro x hx
        exact huq x (List.mem_cons_of_mem c hx)
      · simp [matchItems, hq2, stripLit_append]
    simp only [urlRe, matchItems, stripLit_append, hq, if_true, List.cons_append, hc]
    exact hg

/-- At an import directive the import pattern matches and captures the URL. -/
theorem matchItems_importRe_at (ws u post : JSString) (q q2 : Nat)
    (hws : ws ≠ []) (hsp : ∀ c ∈ ws, space c = true)
    (hq : quote q = true) (hq2 : quote q2 = true) (hu : u ≠ [])
    (huq : ∀ c ∈ u, notQuote c = true) :
    matchItems importRe none (importDirective ws q u q2 ++ post) = some (post, some u) := by
  rw [importDirective_append]
  cases ws with
  | nil => exact absurd rfl hws
  | cons w ws =>
    have hw : space w = true := hsp w (List.mem_cons_self w ws)
    have hg : greedy space (fun _ r => matchItems urlRe none r) [w]
        (ws ++ (utf16 "url(" ++ (q :: (u ++ (q2 :: (utf16 ")" ++ post)))))) =
        some (post, some u) := by
      apply greedy_max
      · intro d t hd
        rw [utf16_url_lit] at hd
        cases hd
        decide
      · intro x hx
        exact hsp x (List.mem_cons_of_mem w hx)
      · exact matchItems_urlRe_at none q q2 u post hq hq2 hu huq
    simp only [importRe, matchItems, stripLit_append, List.cons_append, hw, if_true]
    exact hg

theorem matchHere_importRe_at (ws u post : JSString) (q q2 : Nat)
    (hws : ws ≠ []) (hsp : ∀ c ∈ ws, space c = true)
    (hq : quote q = true) (hq2 : quote q2 = true) (hu : u ≠ [])
    (huq : ∀ c ∈ u, notQuote c = true) :
    matchHere importRe (importDirective ws q u q2 ++ post) =
      some ⟨importDirective ws q u q2, some u⟩ := by
  simp only [matchHere, matchItems_importRe_at ws u post q q2 hws hsp hq hq2 hu huq,
    List.length_append, Nat.add_sub_cancel]
  rw [List.take_left' rfl]

theorem matchHere_urlRe_head (c : Nat) (t : JSString) (hc : c ≠ 117) :
    matchHere urlRe (c :: t) = none := by
  have h : ¬ 117 = c := fun h => hc h.symm
  simp [matchHere, urlRe, matchItems, utf16_url_lit, stripLit, h]

/-- The URL lookup of the callback, run on the text of a directive, returns
the URL of the directive. -/
theorem group1_urlRe_directive (ws u : JSString) (q q2 : Nat)
    (hsp : ∀ c ∈ ws, space c = true)
    (hq : quote q = true) (hq2 : quote q2 = true) (hu : u ≠ [])
    (huq : ∀ c ∈ u, notQuote c = true) :
    group1 urlRe (importDirective ws q u q2) = some u := by
  have hsplit : importDirective ws q u q2 =
      (utf16 "@import" ++ ws) ++ (utf16 "url(" ++ (q :: (u ++ (q2 :: (utf16 ")" ++ []))))) := by
    simp [importDirective]
  have hno : ∀ c ∈ utf16 "@import" ++ ws, c ≠ 117 := by
    intro c hc
    rcases List.mem_append.mp hc with h | h
    · have hall : ∀ d ∈ utf16 "@import", d ≠ 117 := by decide
      exact hall c h
    · rintro rfl
      exact absurd (hsp 117 h) (by decide)
  have hskip : search urlRe (importDirective ws q u q2) =
      search urlRe (utf16 "url(" ++ (q :: (u ++ (q2 :: (utf16 ")" ++ []))))) := by
    rw [hsplit]
    apply search_skip
    intro P1 P2 hP hne
    cases P2 with
    | nil => exact absurd rfl hne
    | cons c t =>
      have hc : c ∈ utf16 "@import" ++ ws := by
        rw [hP]
        exact List.mem_append_right P1 (List.mem_cons_self c t)
      exact matchHere_urlRe_head c _ (hno c hc)
  have hm := matchItems_urlRe_at none q q2 u [] hq hq2 hu huq
  have hhere : matchHere urlRe (utf16 "url(" ++ (q :: (u ++ (q2 :: (utf16 ")" ++ []))))) =
      some ⟨(utf16 "url(" ++ (q :: (u ++ (q2 :: (utf16 ")" ++ []))))).take
        ((utf16 "url(" ++ (q :: (u ++ (q2 :: (utf16 ")" ++ []))))).length - ([] : JSString).length),
        some u⟩ := by
    simp only [matchHere, hm]
  rw [group1, hskip, search_of_matchHere hhere]

/-- A directive before which no `@import` begins is the first match of the pattern
for imports, and the scan resumes right behind it. -/
theorem importMatches_directive (pre post ws u : JSString) (q q2 : Nat)
    (hpre : includes (pre ++ utf16 "@impor") (utf16 "@import") = false)
    (hws : ws ≠ []) (hsp : ∀ c ∈ ws, space c = true)
    (hq : quote q = true) (hq2 : quote q2 = true) (hu : u ≠ [])
    (huq : ∀ c ∈ u, notQuote c = true) :
    importMatches (pre ++ (importDirective ws q u q2 ++ post)) =
      importDirective ws q u q2 :: importMatches post := by
  have hstart : utf16 "@impor" <+: importDirective ws q u q2 ++ post := by
    rw [importDirective_append]
    have : utf16 "@import" = utf16 "@impor" ++ [116] := by decide
    rw [this, List.append_assoc]
    exact List.prefix_append _ _
  have hfail : ∀ P1 P2, pre = P1 ++ P2 → P2 ≠ [] →
      matchHere importRe (P2 ++ (importDirective ws q u q2 ++ post)) = none := by
    intro P1 P2 hP hne
    cases hm : matchHere importRe (P2 ++ (importDirective ws q u q2 ++ post)) with
    | none => rfl
    | some m =>
      exfalso
      exact not_prefix_inside (by decide) hstart (not_infix_of_includes hpre) P1 P2 hP hne
        (matchHere_importRe_starts _ m hm)
  have hhere := matchHere_importRe_at ws u post q q2 hws hsp hq hq2 hu huq
  obtain ⟨ds, hD⟩ : ∃ ds, importDirective ws q u q2 = 64 :: ds :=
    ⟨[105, 109, 112, 111, 114, 116] ++
      (ws ++ (utf16 "url(" ++ (q :: (u ++ (q2 :: utf16 ")"))))),
      by simp [importDirective, utf16_import_lit]⟩
  unfold importMatches matchAll
  rw [matchAllFrom_skip importRe _ pre hfail]
  rw [hD] at hhere ⊢
  simp only [List.cons_append] at hhere ⊢
  rw [matchAllFrom, hhere]
  simp only [List.length_cons, Nat.add_sub_cancel]
  rw [matchAllFrom_resume]

/-- C6 (as stated, refuted): the directive
`@import url("https://cdn.example.com/it's.css");`, whose quoted URL starts with
`https://` and contains an apostrophe, yields no warning; the same directive
without the apostrophe yields one. -/
theorem import_with_apostrophe_is_not_reported :
    utf16 "@import url(\"https://cdn.example.com/it" ++ (39 :: utf16 "s.css\");") =
      importDirective (utf16 " ") 34
        (utf16 "https://cdn.example.com/it" ++ (39 :: utf16 "s.css")) 34 ++ utf16 ";" ∧
    isHttp (utf16 "https://cdn.example.com/it" ++ (39 :: utf16 "s.css")) = true ∧
    scan [] (utf16 "@import url(\"https://cdn.example.com/it" ++ (39 :: utf16 "s.css\");")) =
      emptyReport ∧
    (scan [] (utf16 "@import url(\"https://cdn.example.com/its.css\");")).warnings.length = 1 := by
  decide

/-- C6 (amended): in a stylesheet text `pre ++ D ++ post`, where `D` is a directive
made of `@import`, one or more white-space characters, `url(`,
a quote, a URL `u` that contains no quote character and starts with `http://`
or `https://`, a quote and `)`, and where `@import` begins nowhere inside
`pre`, the directive `D` yields exactly one entry of the warnings list,
carrying the remediation suggestion: the warnings of the scan are those of the
markup, then this entry, then those of `post`; and the errors and success lists
do not depend on the stylesheet, whatever else it contains. -/
theorem import_directive_is_warning (indexHtml pre post ws u : JSString) (q q2 : Nat)
    (hpre : includes (pre ++ utf16 "@impor") (utf16 "@import") = false)
    (hws : ws ≠ []) (hsp : ∀ c ∈ ws, space c = true)
    (hq : quote q = true) (hq2 : quote q2 = true)
    (huq : ∀ c ∈ u, notQuote c = true) (hurl : isHttp u = true) :
    (scan indexHtml (pre ++ (importDirective ws q u q2 ++ post))).warnings =
      (scan indexHtml []).warnings ++
        (⟨utf16 "scss", u, msgImport, none, some suggestionImport⟩ :: (scan [] post).warnings) ∧
    (scan indexHtml (pre ++ (importDirective ws q u q2 ++ post))).errors =
      (scan indexHtml []).errors ∧
    (scan indexHtml (pre ++ (importDirective ws q u q2 ++ post))).success =
      (scan indexHtml []).success := by
  have hu : u ≠ [] := isHttp_ne_nil hurl
  obtain ⟨h1, h2, h3⟩ := scan_stylesheet_split indexHtml
    (pre ++ (importDirective ws q u q2 ++ post))
  obtain ⟨_, _, h4⟩ := scan_stylesheet_split [] post
  have h0 : (scan [] []).warnings = [] := by decide
  have hstep : (importStep emptyReport (importDirective ws q u q2)).warnings =
      [⟨utf16 "scss", u, msgImport, none, some suggestionImport⟩] := by
    simp [importStep, group1_urlRe_directive ws u q q2 hsp hq hq2 hu huq, isCDN_some hurl,
      emptyReport]
  refine ⟨?_, h1, h2⟩
  rw [h3, h4, h0, importMatches_directive pre post ws u q q2 hpre hws hsp hq hq2 hu huq,
    List.flatMap_cons, hstep]
  simp

/-- C6 (amended) on a stylesheet with a comment, an external import written
with apostrophes, and a second external import behind it. -/
theorem import_directive_is_warning_witness :
    (scan [] (utf16 "/* fonts */ " ++ (importDirective (utf16 " ") 39
        (utf16 "https://fonts.example.com/a.css") 39 ++
        utf16 "; @import url(\"https://cdn.example.com/b.css\");"))).warnings =
      (scan [] []).warnings ++
        (⟨utf16 "scss", utf16 "https://fonts.example.com/a.css", msgImport, none,
            some suggestionImport⟩ ::
          (scan [] (utf16 "; @import url(\"https://cdn.example.com/b.css\");")).warnings) ∧
    (scan [] (utf16 "/* fonts */ " ++ (importDirective (utf16 " ") 39
        (utf16 "https://fonts.example.com/a.css") 39 ++
        utf16 "; @import url(\"https://cdn.example.com/b.css\");"))).errors =
      (scan [] []).errors ∧
    (scan [] (utf16 "/* fonts */ " ++ (importDirective (utf16 " ") 39
        (utf16 "https://fonts.example.com/a.css") 39 ++
        utf16 "; @import url(\"https://cdn.example.com/b.css\");"))).success =
      (scan [] []).success :=
  import_directive_is_warning [] (utf16 "/* fonts */ ") (utf16 "; @import url(\"https://cdn.example.com/b.css\");")
    (utf16 " ") (utf16 "https://fonts.example.com/a.css") 39 39
    (by decide) (by decide) (by decide) (by decide) (by decide) (by decide) (by decide)

/-! ## Hash calculator -/

theorem utf8DecodeFrom_ascii :
    ∀ bs : List Nat, (∀ b ∈ bs, b < 0x80) → utf8DecodeFrom utf8Init bs = bs := by
  intro bs
  induction bs with
  | nil => intro _; rfl
  | cons b bs ih =>
    intro h
    have hb : b ≤ 0x7F := Nat.le_of_lt_succ (h b (List.mem_cons_self b bs))
    have hstep : utf8Step utf8Init b = ([b], utf8Init) := by
      simp [utf8Step, utf8Lead, utf8Init, hb]
    rw [utf8DecodeFrom, hstep]
    simp [ih (fun x hx => h x (List.mem_cons_of_mem b hx))]

theorem flatMap_utf16OfCodePoint_ascii :
    ∀ bs : List Nat, (∀ b ∈ bs, b < 0x80) → bs.flatMap utf16OfCodePoint = bs := by
  intro bs
  induction bs with
  | nil => intro _; rfl
  | cons b bs ih =>
    intro h
    have hb : b < 0x10000 := Nat.lt_trans (h b (List.mem_cons_self b bs)) (by decide)
    simp [List.flatMap_cons, utf16OfCodePoint, hb,
      ih (fun x hx => h x (List.mem_cons_of_mem b hx))]

theorem bufferToString_ascii (chunk : List Nat) (h : ∀ b ∈ chunk, b < 0x80) :
    bufferToString chunk = chunk := by
  rw [bufferToString, utf8DecodeFrom_ascii chunk h, flatMap_utf16OfCodePoint_ascii chunk h]

theorem utf8OfCodePoint_ascii {u : Nat} (h : u < 0x80) :
    utf8OfCodePoint (if isSurrogate u = true then 0xFFFD else u) = [u] := by
  have hs : isSurrogate u = false := by
    have : ¬ 0xD800 ≤ u := by omega
    simp [isSurrogate, this]
  simp [hs, utf8OfCodePoint, h]

theorem stringToUtf8_ascii : ∀ s : JSString, (∀ u ∈ s, u < 0x80) → stringToUtf8 s = s
  | [], _ => rfl
  | [u], h => by
    rw [stringToUtf8]
    exact utf8OfCodePoint_ascii (h u (List.mem_singleton.mpr rfl))
  | u :: v :: rest, h => by
    have hu : u < 0x80 := h u (List.mem_cons_self u _)
    have ih := stringToUtf8_ascii (v :: rest) (fun x hx => h x (List.mem_cons_of_mem u hx))
    have hno : ¬ (0xD800 ≤ u ∧ u ≤ 0xDBFF ∧ 0xDC00 ≤ v ∧ v ≤ 0xDFFF) := by omega
    rw [stringToUtf8, if_neg hno, ih, utf8OfCodePoint_ascii hu]
    rfl

theorem foldl_onData_ascii (chunks : List (List Nat)) :
    ∀ d : Download, (∀ c ∈ chunks, ∀ b ∈ c, b < 0x80) →
      chunks.foldl onData d =
        ⟨d.data ++ chunks.flatten, d.totalSize + chunks.flatten.length⟩ := by
  induction chunks with
  | nil => intro d _; simp
  | cons c cs ih =>
    intro d h
    rw [List.foldl_cons, ih _ (fun x hx => h x (List.mem_cons_of_mem c hx))]
    simp [onData, bufferToString_ascii c (h c (List.mem_cons_self c cs)), Nat.add_assoc]

/-- Where the hash calculator does hash the bytes received: when every byte of
every chunk is below 0x80 (an ASCII body) and the body is not empty, each digest
is fed the concatenation of the chunks and the reported size is its length. -/
theorem receive_ascii (chunks : List (List Nat)) (h : ∀ c ∈ chunks, ∀ b ∈ c, b < 0x80)
    (hne : chunks.flatten ≠ []) :
    receive chunks = some ⟨chunks.flatten.length, chunks.flatten, chunks.flatten,
      chunks.flatten⟩ := by
  have hall : ∀ u ∈ chunks.flatten, u < 0x80 := by
    intro u hu
    obtain ⟨c, hc, huc⟩ := List.mem_flatten.mp hu
    exact h c hc u huc
  rw [receive, foldl_onData_ascii chunks _ h]
  generalize chunks.flatten = bs at hne hall ⊢
  have hlen : ¬ bs.length = 0 := fun h0 => hne (List.length_eq_zero.mp h0)
  simp [onEnd, stringToUtf8_ascii _ hall, hlen]

/-- C8 (the code at the failing input): the two bytes C3 A9 of the character
U+00E9 arriving in two chunks are counted as 2 bytes, but each digest is fed
the six bytes EF BF BD EF BF BD of two replacement characters, not the two
bytes received; the same two bytes arriving in one chunk are hashed unchanged,
and a lone byte FF is counted as 1 byte and hashed as EF BF BD. -/
theorem receive_split_character_hashes_replacement :
    receive [[0xC3], [0xA9]] =
      some ⟨2, [0xEF, 0xBF, 0xBD, 0xEF, 0xBF, 0xBD], [0xEF, 0xBF, 0xBD, 0xEF, 0xBF, 0xBD],
        [0xEF, 0xBF, 0xBD, 0xEF, 0xBF, 0xBD]⟩ ∧
    List.flatten [[0xC3], [0xA9]] = [0xC3, 0xA9] ∧
    receive [[0xC3, 0xA9]] = some ⟨2, [0xC3, 0xA9], [0xC3, 0xA9], [0xC3, 0xA9]⟩ ∧
    receive [[0xFF]] = some ⟨1, [0xEF, 0xBF, 0xBD], [0xEF, 0xBF, 0xBD], [0xEF, 0xBF, 0xBD]⟩ := by
  decide

end SRI
